import Mathlib

/-!
Shallow embedding of `model/layers.py` (TransformerTTS acoustic-model layers).

Tensors are modelled as nested lists of rationals (floating-point rounding is
out of scope; the claims under verification are structural, shape and exact
algebraic facts).  Keras sub-layers (`Dense`, `Dropout`, `LayerNormalization`,
`Conv1D`, `BatchNormalization`) are external collaborators: they are modelled
at their documented interface, with library-internal irrational primitives
(sqrt, tanh, batch statistics) abstracted as function-valued fields so that all
definitions stay executable.  Randomness (dropout noise, head-drop shuffles) is
passed in explicitly as parameters, mirroring the library RNG draws.
-/

/-- Rank-1 tensor (a feature vector). -/
abbrev Tensor1 := List ℚ

/-- Rank-2 tensor, axes `(seq, feature)`. -/
abbrev Tensor2 := List Tensor1

/-- Rank-3 tensor, axes `(batch, seq, feature)`. -/
abbrev Tensor3 := List Tensor2

/-- Rank-4 tensor, axes `(batch, heads, seq, depth)`. -/
abbrev Tensor4 := List Tensor3

/-- Attention masks are rank-4 tensors broadcastable against score tensors;
the layers under study only pass them through to the attention kernel. -/
abbrev Mask := Tensor4

/-- `shape2 m s f`: `m` is a well-formed `(s, f)` tensor. -/
def shape2 (m : Tensor2) (s f : ℕ) : Prop :=
  m.length = s ∧ ∀ r ∈ m, r.length = f

/-- `shape3 t b s f`: `t` is a well-formed `(b, s, f)` tensor. -/
def shape3 (t : Tensor3) (b s f : ℕ) : Prop :=
  t.length = b ∧ ∀ m ∈ t, shape2 m s f

/-- `shape4 t b h s d`: `t` is a well-formed `(b, h, s, d)` tensor. -/
def shape4 (t : Tensor4) (b h s d : ℕ) : Prop :=
  t.length = b ∧ ∀ m ∈ t, shape3 m h s d

instance (m : Tensor2) (s f : ℕ) : Decidable (shape2 m s f) := by
  unfold shape2; infer_instance

instance (t : Tensor3) (b s f : ℕ) : Decidable (shape3 t b s f) := by
  unfold shape3; infer_instance

instance (t : Tensor4) (b h s d : ℕ) : Decidable (shape4 t b h s d) := by
  unfold shape4; infer_instance

/-- Elementwise addition of vectors (TensorFlow `+` on equal shapes). -/
def addVec (a b : Tensor1) : Tensor1 := List.zipWith (· + ·) a b

/-- Elementwise addition of rank-2 tensors. -/
def addT2 (a b : Tensor2) : Tensor2 := List.zipWith addVec a b

/-- Elementwise addition of rank-3 tensors (used for residual connections,
where both operands have identical shapes). -/
def addT3 (a b : Tensor3) : Tensor3 := List.zipWith addT2 a b

/-- Multiply every entry of a rank-3 tensor by a scalar on the right
(`inputs * tf.math.sqrt(...)`). -/
def smulT3 (x : Tensor3) (c : ℚ) : Tensor3 :=
  x.map (fun m => m.map (fun r => r.map (· * c)))

/-- Multiply every entry of a rank-2 tensor by a scalar. -/
def smulT2 (m : Tensor2) (c : ℚ) : Tensor2 :=
  m.map (fun r => r.map (· * c))

/-- Index-aware elementwise map over a rank-3 tensor; used to model per-element
random dropout noise. -/
def mapIdx3 (f : ℕ → ℕ → ℕ → ℚ → ℚ) (x : Tensor3) : Tensor3 :=
  x.enum.map (fun bm => bm.2.enum.map (fun sr => sr.2.enum.map
    (fun iv => f bm.1 sr.1 iv.1 iv.2)))

/-- `tf.keras.layers.Dense(units)`: affine map applied to the last axis.
`weights` has one row per input feature (column `j` feeds output `j`);
the output width is `units` (keras fixes it at construction).  `relu` records
the `activation='relu'` constructor choice. -/
structure DenseLayer where
  units : ℕ
  weights : List (List ℚ)
  bias : List ℚ
  relu : Bool

/-- Apply a dense layer to one feature vector. -/
def DenseLayer.applyVec (d : DenseLayer) (v : Tensor1) : Tensor1 :=
  (List.range d.units).map (fun j =>
    let s := (List.zipWith (fun vi wrow => vi * wrow.getD j 0) v d.weights).sum
              + d.bias.getD j 0
    if d.relu then max s 0 else s)

/-- Apply a dense layer position-wise to a rank-3 tensor. -/
def DenseLayer.apply3 (d : DenseLayer) (x : Tensor3) : Tensor3 :=
  x.map (fun m => m.map d.applyVec)

/-- `tf.keras.layers.Dropout(rate)`.  The layer's forward pass reads the
`rate` field set at construction.  `dropout_rate` models a plain Python
attribute later assigned onto the object by `DecoderPrenet.call`; keras
`Dropout` never reads it (its scaling uses `self.rate`). -/
structure KDropout where
  rate : ℚ
  dropout_rate : Option ℚ

/-- Inverted dropout: in training mode each element is multiplied by the drawn
binary noise and scaled by `1 / (1 - rate)`; outside training mode the layer is
the identity.  The random binary draw is supplied as `noise`. -/
def KDropout.apply (d : KDropout) (noise : ℕ → ℕ → ℕ → ℚ) (x : Tensor3)
    (training : Bool) : Tensor3 :=
  if training then mapIdx3 (fun b s i v => v * noise b s i / (1 - d.rate)) x
  else x

/-- `tf.keras.layers.LayerNormalization(epsilon=...)`: per-feature-vector
normalization with learned scale `gamma` and shift `beta`.  The library's
floating-point reciprocal square root is abstracted as the `rsqrt` field. -/
structure LayerNormalization where
  epsilon : ℚ
  gamma : List ℚ
  beta : List ℚ
  rsqrt : ℚ → ℚ

/-- Normalize one feature vector: subtract the mean, multiply by
`rsqrt (variance + epsilon)`, then apply the learned scale and shift. -/
def LayerNormalization.applyVec (ln : LayerNormalization) (v : Tensor1) : Tensor1 :=
  let n : ℚ := v.length
  let mean := v.sum / n
  let variance := (v.map (fun a => (a - mean) ^ 2)).sum / n
  (List.range v.length).map (fun i =>
    (v.getD i 0 - mean) * ln.rsqrt (variance + ln.epsilon) * ln.gamma.getD i 1
      + ln.beta.getD i 0)

/-- Apply layer normalization position-wise to a rank-3 tensor. -/
def LayerNormalization.apply3 (ln : LayerNormalization) (x : Tensor3) : Tensor3 :=
  x.map (fun m => m.map ln.applyVec)

/-- `tf.ones(n)` where `n` may be a (possibly negative) integer expression;
a negative size is a runtime shape error in TensorFlow. -/
def tf_ones (n : ℤ) : Except String Tensor1 :=
  if n < 0 then .error "tf.ones: negative dimension size"
  else .ok (List.replicate n.toNat 1)

/-- Apply a sampled permutation (given as the list of source indices) to a
vector: `tf.random.shuffle` output `i` is input `p i`. -/
def permuteList (p : List ℕ) (l : Tensor1) : Tensor1 :=
  p.map (fun j => l.getD j 0)

/-- The unshuffled keep mask `tf.concat([tf.ones(h - d), tf.zeros(d)], 0)`. -/
def keepMaskBase (head_n drop_n_heads : ℕ) : Tensor1 :=
  List.replicate (head_n - drop_n_heads) 1 ++ List.replicate drop_n_heads 0

/-- Multiply one batch element `(heads, seq, depth)` by its per-head mask value
and the global rescale factor; this is the broadcast product
`batch * keep_head_mask[:, :, newaxis, newaxis] * scale` restricted to one
batch row. -/
def HeadDrop.applyRow (scale : ℚ) (mask : Tensor1) (heads : Tensor3) : Tensor3 :=
  heads.enum.map (fun hslice =>
    hslice.2.map (fun r => r.map (fun v => v * mask.getD hslice.1 0 * scale)))

/-- `HeadDrop.call` from `model/layers.py`.

The input is rank 4 by construction of `Tensor4`, so the source's dynamic rank
check (`len(tf.shape(batch)) != 4`) is written on the static rank and never
fires.  `perms` supplies one sampled shuffle per batch row
(`tf.map_fn(tf.random.shuffle, ...)`).  Note the rescale factor
`head_n / (head_n - drop_n_heads)`: when the denominator is zero TensorFlow's
float division produces `inf` (and then `NaN` products); the claims about this
case only reference the denominator itself, never the resulting value, so the
rational-division convention here is immaterial to them. -/
def HeadDrop.call (batch : Tensor4) (training : Bool) (drop_n_heads : ℕ)
    (perms : List (List ℕ)) : Except String Tensor4 :=
  if training = false ∨ drop_n_heads = 0 then .ok batch
  else if (4 : ℕ) ≠ 4 then .error "attention values must be 4 dimensional"
  else
    let batch_size := batch.length
    let head_n := (batch.headD []).length
    if head_n = 1 then .ok batch
    else do
      let ones ← tf_ones ((head_n : ℤ) - (drop_n_heads : ℤ))
      let base := ones ++ List.replicate drop_n_heads 0
      let masks := (List.range batch_size).map
        (fun b => permuteList (perms.getD b (List.range head_n)) base)
      let scale : ℚ := (head_n : ℚ) / ((head_n : ℚ) - (drop_n_heads : ℚ))
      .ok (List.zipWith (fun heads mask => HeadDrop.applyRow scale mask heads)
            batch masks)

/-- Transpose the outer two axes of a rank-3 tensor; together with the reshape
helpers this models `tf.transpose(x, perm=[0, 2, 1, 3])` applied inside each
batch element. -/
def transposeT3 (t : Tensor3) : Tensor3 :=
  (List.range (t.headD []).length).map (fun s => t.map (fun h => h.getD s []))

/-- `tf.reshape(x, (batch, -1, num_heads, depth))` applied to one batch
element: split each feature row of width `num_heads * depth` into `num_heads`
contiguous chunks of width `depth`. -/
def reshapeSplit (num_heads depth : ℕ) (m : Tensor2) : Tensor3 :=
  m.map (fun row => (List.range num_heads).map
    (fun h => (row.drop (h * depth)).take depth))

/-- `MultiHeadAttention.split_heads`: reshape to `(batch, seq, heads, depth)`
then transpose to `(batch, heads, seq, depth)`. -/
def split_heads (num_heads depth : ℕ) (x : Tensor3) : Tensor4 :=
  x.map (fun m => transposeT3 (reshapeSplit num_heads depth m))

/-- Undo the head split: `tf.transpose(x, perm=[0, 2, 1, 3])` followed by
`tf.reshape(x, (batch, -1, model_dim))` — transpose each batch element back to
`(seq, heads, depth)` and merge the last two axes. -/
def combineHeads (x : Tensor4) : Tensor3 :=
  x.map (fun heads => (transposeT3 heads).map (fun r => r.flatten))

/-- `tf.concat([a, b], axis=-1)` on rank-3 tensors of equal leading shape. -/
def concatFeat (a b : Tensor3) : Tensor3 :=
  List.zipWith (fun m1 m2 => List.zipWith (· ++ ·) m1 m2) a b

/-- The type of the external `scaled_dot_product_attention` collaborator:
`(query, key, value, mask) -> (weighted_value, weight_map)`, consumed as a
pure function (`model/transformer_utils.py` is outside this subsystem). -/
abbrev SDPA := Tensor4 → Tensor4 → Tensor4 → Mask → Tensor4 × Tensor4

/-- `MultiHeadAttention` layer state: `model_dim`, `num_heads` and the four
dense sub-layers built in `__init__`; `depth = model_dim // num_heads`
(the constructor asserts exact divisibility). -/
structure MultiHeadAttention where
  model_dim : ℕ
  num_heads : ℕ
  wq : DenseLayer
  wk : DenseLayer
  wv : DenseLayer
  dense : DenseLayer

/-- `depth = model_dim // num_heads` from the constructor. -/
def MultiHeadAttention.depth (mha : MultiHeadAttention) : ℕ :=
  mha.model_dim / mha.num_heads

/-- The projected-and-split tensors together with the attention kernel's two
outputs (lines 70–78 of the source `call`). -/
def MultiHeadAttention.kernelOut (mha : MultiHeadAttention) (sdpa : SDPA)
    (v k q_in : Tensor3) (mask : Mask) : Tensor4 × Tensor4 :=
  let q := split_heads mha.num_heads mha.depth (mha.wq.apply3 q_in)
  let kh := split_heads mha.num_heads mha.depth (mha.wk.apply3 k)
  let vh := split_heads mha.num_heads mha.depth (mha.wv.apply3 v)
  sdpa q kh vh mask

/-- `MultiHeadAttention.call`: project/split, run the attention kernel, apply
`HeadDrop` to the weighted values, recombine the heads, concatenate the
*original* query `q_in` with the recombined attention output on the feature
axis, and project with the final dense layer.  The attention weights are
returned as produced by the kernel. -/
def MultiHeadAttention.call (mha : MultiHeadAttention) (sdpa : SDPA)
    (v k q_in : Tensor3) (mask : Mask) (training : Bool) (drop_n_heads : ℕ)
    (perms : List (List ℕ)) : Except String (Tensor3 × Tensor4) := do
  let ko := mha.kernelOut sdpa v k q_in mask
  let scaled_attention := ko.1
  let attention_weights := ko.2
  let scaled_attention ← HeadDrop.call scaled_attention training drop_n_heads perms
  let concat_attention := combineHeads scaled_attention
  let concat_query := concatFeat q_in concat_attention
  .ok (mha.dense.apply3 concat_query, attention_weights)

/-- `PointWiseFFN`: two dense layers, the first with ReLU. -/
structure PointWiseFFN where
  d1 : DenseLayer
  d2 : DenseLayer

/-- `PointWiseFFN.call`. -/
def PointWiseFFN.call (ffn : PointWiseFFN) (x : Tensor3) : Tensor3 :=
  ffn.d2.apply3 (ffn.d1.apply3 x)

/-- `SelfAttentionResNorm` layer state. -/
structure SelfAttentionResNorm where
  mha : MultiHeadAttention
  ln : LayerNormalization
  dropout : KDropout

/-- `SelfAttentionResNorm.__init__(model_dim, num_heads, dropout_rate)`:
builds a `MultiHeadAttention`, a `LayerNormalization(epsilon=1e-6)` and a
`Dropout(dropout_rate)`. -/
def SelfAttentionResNorm.make (mha : MultiHeadAttention) (g b : List ℚ)
    (r : ℚ → ℚ) (dropout_rate : ℚ) : SelfAttentionResNorm :=
  { mha := mha
    ln := { epsilon := 1 / 1000000, gamma := g, beta := b, rsqrt := r }
    dropout := { rate := dropout_rate, dropout_rate := none } }

/-- `SelfAttentionResNorm.call`: `ln (x + dropout (mha x x x))`. -/
def SelfAttentionResNorm.call (l : SelfAttentionResNorm) (sdpa : SDPA)
    (x : Tensor3) (training : Bool) (mask : Mask) (drop_n_heads : ℕ)
    (perms : List (List ℕ)) (noise : ℕ → ℕ → ℕ → ℚ) :
    Except String (Tensor3 × Tensor4) := do
  let aw ← l.mha.call sdpa x x x mask training drop_n_heads perms
  let attn_out := l.dropout.apply noise aw.1 training
  .ok (l.ln.apply3 (addT3 x attn_out), aw.2)

/-- `FFNResNorm` layer state. -/
structure FFNResNorm where
  ffn : PointWiseFFN
  dropout : KDropout
  ln : LayerNormalization

/-- `FFNResNorm.__init__`: builds the FFN, a `Dropout(dropout_rate)` and a
`LayerNormalization(epsilon=1e-6)`. -/
def FFNResNorm.make (ffn : PointWiseFFN) (g b : List ℚ) (r : ℚ → ℚ)
    (dropout_rate : ℚ) : FFNResNorm :=
  { ffn := ffn
    dropout := { rate := dropout_rate, dropout_rate := none }
    ln := { epsilon := 1 / 1000000, gamma := g, beta := b, rsqrt := r } }

/-- `FFNResNorm.call`: `ln (x + dropout (ffn x))`. -/
def FFNResNorm.call (l : FFNResNorm) (x : Tensor3) (training : Bool)
    (noise : ℕ → ℕ → ℕ → ℚ) : Tensor3 :=
  let ffn_out := l.dropout.apply noise (l.ffn.call x) training
  l.ln.apply3 (addT3 x ffn_out)

/-- `CrossAttentionResnorm` layer state. -/
structure CrossAttentionResnorm where
  mha : MultiHeadAttention
  layernorm : LayerNormalization
  dropout : KDropout

/-- `CrossAttentionResnorm.__init__(model_dim, num_heads, dropout_rate)`. -/
def CrossAttentionResnorm.make (mha : MultiHeadAttention) (g b : List ℚ)
    (r : ℚ → ℚ) (dropout_rate : ℚ) : CrossAttentionResnorm :=
  { mha := mha
    layernorm := { epsilon := 1 / 1000000, gamma := g, beta := b, rsqrt := r }
    dropout := { rate := dropout_rate, dropout_rate := none } }

/-- `CrossAttentionResnorm.call`: query `q` attends over the encoder output
(`k`, `v`); the residual adds the dropped-out attention values to `q`
(`layernorm(attn_values + q)`). -/
def CrossAttentionResnorm.call (l : CrossAttentionResnorm) (sdpa : SDPA)
    (q k v : Tensor3) (training : Bool) (mask : Mask) (drop_n_heads : ℕ)
    (perms : List (List ℕ)) (noise : ℕ → ℕ → ℕ → ℚ) :
    Except String (Tensor3 × Tensor4) := do
  let aw ← l.mha.call sdpa v k q mask training drop_n_heads perms
  let attn_values := l.dropout.apply noise aw.1 training
  .ok (l.layernorm.apply3 (addT3 attn_values q), aw.2)

/-- TensorFlow broadcasting of one axis: equal extents pass through, an extent
of `1` stretches to the other side, anything else is a shape error. -/
def broadcastDim (n m : ℕ) : Except String ℕ :=
  if n = m then .ok n
  else if n = 1 then .ok m
  else if m = 1 then .ok n
  else .error "Incompatible shapes"

/-- Read entry `i` of a vector under broadcasting (a length-1 vector repeats). -/
def bget1 (l : Tensor1) (i : ℕ) : ℚ :=
  if l.length = 1 then l.headD 0 else l.getD i 0

/-- Read row `i` of a rank-2 tensor under broadcasting. -/
def bget2 (m : Tensor2) (i : ℕ) : Tensor1 :=
  if m.length = 1 then m.headD [] else m.getD i []

/-- Read batch element `i` of a rank-3 tensor under broadcasting. -/
def bget3 (t : Tensor3) (i : ℕ) : Tensor2 :=
  if t.length = 1 then t.headD [] else t.getD i []

/-- Broadcasting addition of vectors. -/
def broadcastAddVec (a b : Tensor1) : Except String Tensor1 := do
  let n ← broadcastDim a.length b.length
  .ok ((List.range n).map (fun i => bget1 a i + bget1 b i))

/-- Broadcasting addition of rank-2 tensors. -/
def broadcastAddMat (a b : Tensor2) : Except String Tensor2 := do
  let n ← broadcastDim a.length b.length
  (List.range n).mapM (fun i => broadcastAddVec (bget2 a i) (bget2 b i))

/-- Broadcasting addition of rank-3 tensors; models the TensorFlow `+` used
for `x += self.pos_encoding[:, :seq_len, :]`, whose operands may differ in
extent (batch axis 1 on the table, and sequence axes when the slice is shorter
than the input). -/
def broadcastAddT3 (a b : Tensor3) : Except String Tensor3 := do
  let n ← broadcastDim a.length b.length
  (List.range n).mapM (fun i => broadcastAddMat (bget3 a i) (bget3 b i))

/-- Per-layer randomness drawn by the library during one forward call:
head-drop shuffles for up to two attention blocks and dropout noise for up to
three dropout layers. -/
structure LayerRand where
  permsA : List (List ℕ)
  permsB : List (List ℕ)
  noise1 : ℕ → ℕ → ℕ → ℚ
  noise2 : ℕ → ℕ → ℕ → ℚ
  noise3 : ℕ → ℕ → ℕ → ℚ

/-- Default randomness (identity permutations, all-keep noise). -/
def defaultLayerRand : LayerRand :=
  { permsA := [], permsB := []
    noise1 := fun _ _ _ => 1, noise2 := fun _ _ _ => 1, noise3 := fun _ _ _ => 1 }

/-- `EncoderLayer`: self-attention res-norm followed by FFN res-norm. -/
structure EncoderLayer where
  sarn : SelfAttentionResNorm
  ffn : FFNResNorm

/-- `EncoderLayer.call`. -/
def EncoderLayer.call (l : EncoderLayer) (sdpa : SDPA) (x : Tensor3)
    (training : Bool) (mask : Mask) (drop_n_heads : ℕ) (r : LayerRand) :
    Except String Tensor3 := do
  let aw ← l.sarn.call sdpa x training mask drop_n_heads r.permsA r.noise1
  .ok (l.ffn.call aw.1 training r.noise2)

/-- `Encoder` layer state: `pos_encoding` is the table produced by the
external `positional_encoding(maximum_position_encoding, model_dim)`
collaborator, of shape `(1, maximum_position_encoding, model_dim)`;
`sqrt_model_dim` is `tf.math.sqrt(float(model_dim))` as computed by the
library (irrational in general, abstracted as a rational parameter). -/
structure Encoder where
  model_dim : ℕ
  sqrt_model_dim : ℚ
  pos_encoding : Tensor3
  enc_layers : List EncoderLayer
  dropout : KDropout

/-- The `for layer in self.enc_layers` loop of `Encoder.call`. -/
def Encoder.loop (sdpa : SDPA) (layers : List EncoderLayer) (i : ℕ)
    (x : Tensor3) (training : Bool) (mask : Mask) (drop_n_heads : ℕ)
    (rands : List LayerRand) : Except String Tensor3 :=
  match layers with
  | [] => .ok x
  | l :: rest => do
    let x' ← l.call sdpa x training mask drop_n_heads (rands.getD i defaultLayerRand)
    Encoder.loop sdpa rest (i + 1) x' training mask drop_n_heads rands

/-- `Encoder.call`: scale by `sqrt(model_dim)`, add the positional-encoding
slice `pos_encoding[:, :seq_len, :]` (a broadcasting add), apply the entry
dropout, then run the layer stack. -/
def Encoder.call (e : Encoder) (sdpa : SDPA) (inputs : Tensor3)
    (training : Bool) (mask : Mask) (drop_n_heads : ℕ)
    (noise0 : ℕ → ℕ → ℕ → ℚ) (rands : List LayerRand) :
    Except String Tensor3 := do
  let seq_len := (inputs.headD []).length
  let x := smulT3 inputs e.sqrt_model_dim
  let x ← broadcastAddT3 x (e.pos_encoding.map (List.take seq_len))
  let x := e.dropout.apply noise0 x training
  Encoder.loop sdpa e.enc_layers 0 x training mask drop_n_heads rands

/-- `DecoderLayer`: causal self-attention (block1), cross-attention against
the encoder output (block2), then FFN res-norm. -/
structure DecoderLayer where
  sarn : SelfAttentionResNorm
  carn : CrossAttentionResnorm
  ffn : FFNResNorm

/-- `DecoderLayer.call`; returns the layer output together with the two
attention-weight maps. -/
def DecoderLayer.call (l : DecoderLayer) (sdpa : SDPA) (x enc_output : Tensor3)
    (training : Bool) (look_ahead_mask padding_mask : Mask) (drop_n_heads : ℕ)
    (r : LayerRand) : Except String (Tensor3 × Tensor4 × Tensor4) := do
  let a1 ← l.sarn.call sdpa x training look_ahead_mask drop_n_heads r.permsA r.noise1
  let a2 ← l.carn.call sdpa a1.1 enc_output enc_output training padding_mask
            drop_n_heads r.permsB r.noise2
  .ok (l.ffn.call a2.1 training r.noise3, a1.2, a2.2)

/-- `Decoder` layer state (mirrors `Encoder`). -/
structure Decoder where
  model_dim : ℕ
  sqrt_model_dim : ℚ
  pos_encoding : Tensor3
  dec_layers : List DecoderLayer
  dropout : KDropout

/-- The `for i, layer in enumerate(self.dec_layers)` loop of `Decoder.call`:
threads the representation through the layers and records each layer's two
attention-weight maps under `decoder_layer{i+1}_block1/2` (the Python dict,
modelled as an insertion-ordered association list). -/
def Decoder.loop (sdpa : SDPA) (layers : List DecoderLayer) (i : ℕ)
    (x enc_output : Tensor3) (training : Bool)
    (look_ahead_mask padding_mask : Mask) (drop_n_heads : ℕ)
    (rands : List LayerRand) :
    Except String (Tensor3 × List (String × Tensor4)) :=
  match layers with
  | [] => .ok (x, [])
  | l :: rest => do
    let out ← l.call sdpa x enc_output training look_ahead_mask padding_mask
                drop_n_heads (rands.getD i defaultLayerRand)
    let tail ← Decoder.loop sdpa rest (i + 1) out.1 enc_output training
                look_ahead_mask padding_mask drop_n_heads rands
    .ok (tail.1, (s!"decoder_layer{i + 1}_block1", out.2.1)
                  :: (s!"decoder_layer{i + 1}_block2", out.2.2) :: tail.2)

/-- `Decoder.call`: same entry treatment as the encoder, then the layer loop;
returns the final representation and the attention-weight mapping. -/
def Decoder.call (d : Decoder) (sdpa : SDPA) (inputs enc_output : Tensor3)
    (training : Bool) (look_ahead_mask padding_mask : Mask) (drop_n_heads : ℕ)
    (noise0 : ℕ → ℕ → ℕ → ℚ) (rands : List LayerRand) :
    Except String (Tensor3 × List (String × Tensor4)) := do
  let seq_len := (inputs.headD []).length
  let x := smulT3 inputs d.sqrt_model_dim
  let x ← broadcastAddT3 x (d.pos_encoding.map (List.take seq_len))
  let x := d.dropout.apply noise0 x training
  Decoder.loop sdpa d.dec_layers 0 x enc_output training look_ahead_mask
    padding_mask drop_n_heads rands

/-- `DecoderPrenet` layer state: two ReLU dense layers and two dropout
sub-layers constructed with the `dropout_rate` passed to `__init__`. -/
structure DecoderPrenet where
  d1 : DenseLayer
  d2 : DenseLayer
  dropout_1 : KDropout
  dropout_2 : KDropout

/-- `DecoderPrenet.__init__(model_dim, dense_hidden_units, dropout_rate)`:
`d1 = Dense(dense_hidden_units, relu)`, `d2 = Dense(model_dim, relu)`,
two `Dropout(dropout_rate)` layers (whose keras `rate` field is set here;
no `dropout_rate` attribute exists on them yet). -/
def DecoderPrenet.make (model_dim dense_hidden_units : ℕ)
    (w1 : List (List ℚ)) (b1 : List ℚ) (w2 : List (List ℚ)) (b2 : List ℚ)
    (dropout_rate : ℚ) : DecoderPrenet :=
  { d1 := { units := dense_hidden_units, weights := w1, bias := b1, relu := true }
    d2 := { units := model_dim, weights := w2, bias := b2, relu := true }
    dropout_1 := { rate := dropout_rate, dropout_rate := none }
    dropout_2 := { rate := dropout_rate, dropout_rate := none } }

/-- `DecoderPrenet.call(x, dropout_rate)`.

The source assigns `self.dropout_1.dropout_rate = dropout_rate` (and likewise
for `dropout_2`): in Python this creates/overwrites a plain attribute named
`dropout_rate` on the keras `Dropout` object, modelled here by updating the
(otherwise unread) `dropout_rate` field.  Both dropout layers are then invoked
with `training=True` unconditionally.  The mutated layer objects are returned
alongside the output to make the state change explicit. -/
def DecoderPrenet.call (p : DecoderPrenet) (x : Tensor3) (dropout_rate : ℚ)
    (noise1 noise2 : ℕ → ℕ → ℕ → ℚ) : DecoderPrenet × Tensor3 :=
  let p := { p with
    dropout_1 := { p.dropout_1 with dropout_rate := some dropout_rate }
    dropout_2 := { p.dropout_2 with dropout_rate := some dropout_rate } }
  let x := p.d1.apply3 x
  let x := p.dropout_1.apply noise1 x true
  let x := p.d2.apply3 x
  let x := p.dropout_2.apply noise2 x true
  (p, x)

/-- Modelled from the spec: the intended `DecoderPrenet.call`, in which "the
dropout rate is reconfigurable per call" — the dropout applied after each of
the two dense layers actually uses the per-call `dropout_rate` argument (the
code that would realize this, an effective reconfiguration of the keras
`Dropout` rate, is missing: the source assigns a `dropout_rate` attribute that
the library layer never reads). -/
def DecoderPrenet.call_spec (p : DecoderPrenet) (x : Tensor3)
    (dropout_rate : ℚ) (noise1 noise2 : ℕ → ℕ → ℕ → ℚ) : Tensor3 :=
  let x := p.d1.apply3 x
  let x := mapIdx3 (fun b s i v => v * noise1 b s i / (1 - dropout_rate)) x
  let x := p.d2.apply3 x
  let x := mapIdx3 (fun b s i v => v * noise2 b s i / (1 - dropout_rate)) x
  x

/-- External `tf.keras.layers.Conv1D(..., padding='causal', activation=...)`,
abstracted at its interface (a shape-preserving-along-batch/seq map whose
kernel weights and activation live inside the function). -/
structure ConvLayer where
  apply : Tensor3 → Tensor3

/-- External `tf.keras.layers.BatchNormalization()`, abstracted at its
interface; the `Bool` is the training flag (batch statistics vs. running
statistics). -/
structure BatchNorm where
  apply : Tensor3 → Bool → Tensor3

/-- `PostnetConvLayers` layer state: `n_layers - 1` tanh convolutions with
batch norm and dropout, one final linear convolution, and one batch norm per
convolution (the last one applied after the final convolution). -/
structure PostnetConvLayers where
  convolutions : List ConvLayer
  dropouts : List KDropout
  last_conv : ConvLayer
  batch_norms : List BatchNorm

/-- Identity batch norm used as the out-of-range default for list indexing. -/
def BatchNorm.id : BatchNorm := { apply := fun x _ => x }

/-- `PostnetConvLayers.call`: the indexed loop over the first `n_layers - 1`
convolutions, then the final convolution and the last batch norm. -/
def PostnetConvLayers.call (c : PostnetConvLayers)
    (noises : List (ℕ → ℕ → ℕ → ℚ)) (x : Tensor3) (training : Bool) : Tensor3 :=
  let x := (List.range c.convolutions.length).foldl (fun x i =>
    let x := ((c.convolutions.getD i { apply := fun t => t }).apply x)
    let x := (c.batch_norms.getD i BatchNorm.id).apply x training
    ((c.dropouts.getD i { rate := 0, dropout_rate := none }).apply
      (noises.getD i (fun _ _ _ => 1)) x training)) x
  (c.batch_norms.getLastD BatchNorm.id).apply (c.last_conv.apply x) training

/-- `Postnet` layer state: a 3-unit stop-token dense projection and the
convolutional stack. -/
structure Postnet where
  mel_channels : ℕ
  stop_linear : DenseLayer
  postnet_conv_layers : PostnetConvLayers

/-- `Postnet.__init__(mel_channels, ...)`: `stop_linear = Dense(3)` (linear
activation), plus the convolutional stack. -/
def Postnet.make (mel_channels : ℕ) (w : List (List ℚ)) (b : List ℚ)
    (pcl : PostnetConvLayers) : Postnet :=
  { mel_channels := mel_channels
    stop_linear := { units := 3, weights := w, bias := b, relu := false }
    postnet_conv_layers := pcl }

/-- The record returned by `Postnet.call`. -/
structure PostnetOut where
  mel_linear : Tensor3
  final_output : Tensor3
  stop_prob : Tensor3
deriving DecidableEq

/-- `Postnet.conv_net`: the convolutional stack output added back to the raw
input via the keras `Add` layer. -/
def Postnet.conv_net (p : Postnet) (noises : List (ℕ → ℕ → ℕ → ℚ))
    (x : Tensor3) (training : Bool) : Tensor3 :=
  let conv_out := p.postnet_conv_layers.call noises x training
  addT3 conv_out x

/-- `Postnet.call`: stop logits from the raw input, residual refinement from
the convolutional stack, raw input passed through as `mel_linear`. -/
def Postnet.call (p : Postnet) (noises : List (ℕ → ℕ → ℕ → ℚ))
    (x : Tensor3) (training : Bool) : PostnetOut :=
  let stop := p.stop_linear.apply3 x
  let conv_out := p.conv_net noises x training
  { mel_linear := x, final_output := conv_out, stop_prob := stop }

/-- The primary output of a fallible attention-layer call, when it succeeded. -/
def okOut (e : Except String (Tensor3 × Tensor4)) : Option Tensor3 :=
  e.toOption.map Prod.fst

/-- The attention-weight map of a fallible attention-layer call, when it
succeeded. -/
def okWeights (e : Except String (Tensor3 × Tensor4)) : Option Tensor4 :=
  e.toOption.map Prod.snd

/-- The ordered key list of the attention-weight mapping returned by a
successful `Decoder.call`. -/
def okKeys (e : Except String (Tensor3 × List (String × Tensor4))) :
    Option (List String) :=
  e.toOption.map (fun r => r.2.map Prod.fst)

/-- All ways to insert an element into a list (auxiliary for the executable
permutation enumeration used to average over head-drop shuffles). -/
def insertEverywhere (a : ℕ) : List ℕ → List (List ℕ)
  | [] => [[a]]
  | b :: l => (a :: b :: l) :: (insertEverywhere a l).map (b :: ·)

/-- Executable enumeration of all permutations of a list (each exactly once
for duplicate-free inputs); the uniform distribution of `tf.random.shuffle`
outcomes is the uniform distribution over this enumeration. -/
def allPerms : List ℕ → List (List ℕ)
  | [] => [[]]
  | a :: l => (allPerms l).flatMap (insertEverywhere a)

/-- The 1-indexed key list `decoder_layer{i}_block1/2` recorded by
`Decoder.call` for a stack of `n` layers, starting at layer index `i0 + 1`. -/
def decoderKeyList : ℕ → ℕ → List String
  | _, 0 => []
  | i0, n + 1 =>
    s!"decoder_layer{i0 + 1}_block1" :: s!"decoder_layer{i0 + 1}_block2"
      :: decoderKeyList (i0 + 1) n

/-! ### Concrete layer instances used by the witness theorems -/

def denseW : DenseLayer := { units := 1, weights := [[1]], bias := [0], relu := false }

def mhaW : MultiHeadAttention :=
  { model_dim := 1, num_heads := 1, wq := denseW, wk := denseW, wv := denseW, dense := denseW }

def sdpaW : SDPA := fun q _ _ _ => (q, q)

def lnW : LayerNormalization :=
  { epsilon := 1 / 1000000, gamma := [1], beta := [0], rsqrt := fun _ => 1 }

def dropW : KDropout := { rate := 0, dropout_rate := none }

def noiseW : ℕ → ℕ → ℕ → ℚ := fun _ _ _ => 1

def sarnW : SelfAttentionResNorm := { mha := mhaW, ln := lnW, dropout := dropW }

def carnW : CrossAttentionResnorm := { mha := mhaW, layernorm := lnW, dropout := dropW }

def pwffnW : PointWiseFFN := { d1 := denseW, d2 := denseW }

def ffnrW : FFNResNorm := { ffn := pwffnW, dropout := dropW, ln := lnW }

def encLayerW : EncoderLayer := { sarn := sarnW, ffn := ffnrW }

def decLayerW : DecoderLayer := { sarn := sarnW, carn := carnW, ffn := ffnrW }

/-- Encoder whose positional-encoding table covers a single position
(`maximum_position_encoding = 1`). -/
def encW : Encoder :=
  { model_dim := 1, sqrt_model_dim := 1, pos_encoding := [[[0]]],
    enc_layers := [encLayerW], dropout := dropW }

def decW : Decoder :=
  { model_dim := 1, sqrt_model_dim := 1, pos_encoding := [[[0]]],
    dec_layers := [decLayerW], dropout := dropW }

/-- Encoder whose positional-encoding table covers two positions. -/
def enc2W : Encoder :=
  { model_dim := 1, sqrt_model_dim := 1, pos_encoding := [[[0], [0]]],
    enc_layers := [encLayerW], dropout := dropW }

def dec2W : Decoder :=
  { model_dim := 1, sqrt_model_dim := 1, pos_encoding := [[[0], [0]]],
    dec_layers := [decLayerW], dropout := dropW }

def prenetW : DecoderPrenet := DecoderPrenet.make 1 1 [[1]] [0] [[1]] [0] (1 / 2)

def pclW : PostnetConvLayers :=
  { convolutions := [], dropouts := [], last_conv := { apply := fun t => t },
    batch_norms := [{ apply := fun t _ => t }] }

/-- A `(1, 4, 1, 1)` attention-value tensor. -/
def batch41W : Tensor4 := [[[[1]], [[2]], [[3]], [[4]]]]

def t3W : Tensor3 := [[[1]]]

def dense2W : DenseLayer :=
  { units := 2, weights := [[1, 0], [0, 1]], bias := [0, 0], relu := false }

def mha2W : MultiHeadAttention :=
  { model_dim := 2, num_heads := 2, wq := dense2W, wk := dense2W, wv := dense2W,
    dense := dense2W }

def q2W : Tensor3 := [[[1, 2]]]

/-- A `(1, 2, 1, 1)` attention-value tensor. -/
def batch2W : Tensor4 := [[[[1]], [[2]]]]

/-! ### Shape lemmas for the keras sub-layer models -/

lemma DenseLayer.applyVec_units_length (d : DenseLayer) (v : Tensor1) :
    (d.applyVec v).length = d.units := by
  simp [DenseLayer.applyVec]

lemma DenseLayer.apply3_shape (d : DenseLayer) {x : Tensor3} {b s f : ℕ}
    (h : shape3 x b s f) : shape3 (d.apply3 x) b s d.units := by
  obtain ⟨hb, hm⟩ := h
  constructor
  · simpa [DenseLayer.apply3]
  · intro m hmem
    simp only [DenseLayer.apply3, List.mem_map] at hmem
    obtain ⟨m0, hm0, rfl⟩ := hmem
    obtain ⟨hs, hr⟩ := hm m0 hm0
    constructor
    · simpa
    · intro r hr'
      simp only [List.mem_map] at hr'
      obtain ⟨r0, _, rfl⟩ := hr'
      exact d.applyVec_units_length r0

lemma LayerNormalization.applyVec_same_length (ln : LayerNormalization) (v : Tensor1) :
    (ln.applyVec v).length = v.length := by
  simp [LayerNormalization.applyVec]

lemma LayerNormalization.apply3_preserves_shape (ln : LayerNormalization) {x : Tensor3}
    {b s f : ℕ} (h : shape3 x b s f) : shape3 (ln.apply3 x) b s f := by
  obtain ⟨hb, hm⟩ := h
  constructor
  · simpa [LayerNormalization.apply3]
  · intro m hmem
    simp only [LayerNormalization.apply3, List.mem_map] at hmem
    obtain ⟨m0, hm0, rfl⟩ := hmem
    obtain ⟨hs, hr⟩ := hm m0 hm0
    constructor
    · simpa
    · intro r hr'
      simp only [List.mem_map] at hr'
      obtain ⟨r0, hr0, rfl⟩ := hr'
      rw [ln.applyVec_same_length, hr r0 hr0]

lemma shape_mapIdx3 (g : ℕ → ℕ → ℕ → ℚ → ℚ) {x : Tensor3} {b s f : ℕ}
    (h : shape3 x b s f) : shape3 (mapIdx3 g x) b s f := by
  obtain ⟨hb, hm⟩ := h
  constructor
  · simpa [mapIdx3]
  · intro m hmem
    simp only [mapIdx3, List.mem_map] at hmem
    obtain ⟨⟨i, m0⟩, hm0, rfl⟩ := hmem
    have hm0' : m0 ∈ x := List.snd_mem_of_mem_enum hm0
    obtain ⟨hs, hr⟩ := hm m0 hm0'
    constructor
    · simpa
    · intro r hr'
      simp only [List.mem_map] at hr'
      obtain ⟨⟨j, r0⟩, hr0, rfl⟩ := hr'
      have hr0' : r0 ∈ m0 := List.snd_mem_of_mem_enum hr0
      simpa using hr r0 hr0'

lemma KDropout.shape_apply (d : KDropout) (noise : ℕ → ℕ → ℕ → ℚ)
    {x : Tensor3} {b s f : ℕ} (training : Bool) (h : shape3 x b s f) :
    shape3 (d.apply noise x training) b s f := by
  unfold KDropout.apply
  split
  · exact shape_mapIdx3 _ h
  · exact h

lemma KDropout.apply_not_training (d : KDropout) (noise : ℕ → ℕ → ℕ → ℚ)
    (x : Tensor3) : d.apply noise x false = x := rfl

lemma mem_zipWith_elim {α β γ : Type} {f : α → β → γ} :
    ∀ {l₁ : List α} {l₂ : List β} {x : γ}, x ∈ List.zipWith f l₁ l₂ →
      ∃ a ∈ l₁, ∃ b ∈ l₂, x = f a b := by
  intro l₁
  induction l₁ with
  | nil => intro l₂ x h; simp at h
  | cons a t ih =>
    intro l₂ x h
    cases l₂ with
    | nil => simp at h
    | cons b t2 =>
      rw [List.zipWith_cons_cons, List.mem_cons] at h
      rcases h with h | h
      · exact ⟨a, List.mem_cons_self a t, b, List.mem_cons_self b t2, h⟩
      · obtain ⟨a', ha, b', hb, rfl⟩ := ih h
        exact ⟨a', List.mem_cons_of_mem _ ha, b', List.mem_cons_of_mem _ hb, rfl⟩

lemma length_addVec (a b : Tensor1) : (addVec a b).length = min a.length b.length := by
  simp [addVec]

lemma shape2_addT2 {m1 m2 : Tensor2} {s f : ℕ}
    (h1 : shape2 m1 s f) (h2 : shape2 m2 s f) : shape2 (addT2 m1 m2) s f := by
  obtain ⟨hs1, hr1⟩ := h1
  obtain ⟨hs2, hr2⟩ := h2
  constructor
  · simp [addT2, hs1, hs2]
  · intro r hr
    obtain ⟨r1, hm1, r2, hm2, rfl⟩ := mem_zipWith_elim hr
    rw [length_addVec, hr1 r1 hm1, hr2 r2 hm2]
    simp

lemma shape_addT3 {a c : Tensor3} {b s f : ℕ}
    (ha : shape3 a b s f) (hc : shape3 c b s f) : shape3 (addT3 a c) b s f := by
  obtain ⟨hab, ham⟩ := ha
  obtain ⟨hcb, hcm⟩ := hc
  constructor
  · simp [addT3, hab, hcb]
  · intro m hmem
    obtain ⟨m1, hm1, m2, hm2, rfl⟩ := mem_zipWith_elim hmem
    exact shape2_addT2 (ham m1 hm1) (hcm m2 hm2)

lemma headD_length_of_shape4 {t : Tensor4} {b h s d : ℕ}
    (ht : shape4 t b h s d) (hb : 1 ≤ b) : (t.headD []).length = h := by
  obtain ⟨hl, hm⟩ := ht
  cases t with
  | nil => simp at hl; omega
  | cons m rest => exact (hm m (List.mem_cons_self m rest)).1

lemma transposeT3_shape {t : Tensor3} {h s d : ℕ}
    (ht : shape3 t h s d) (h1 : 1 ≤ h) : shape3 (transposeT3 t) s h d := by
  obtain ⟨hl, hm⟩ := ht
  have hhead : (t.headD []).length = s := by
    cases t with
    | nil => simp at hl; omega
    | cons m rest => exact (hm m (List.mem_cons_self m rest)).1
  constructor
  · simp only [transposeT3, List.length_map, List.length_range]
    exact hhead
  · intro r hr
    simp only [transposeT3, hhead, List.mem_map, List.mem_range] at hr
    obtain ⟨i, hi, rfl⟩ := hr
    constructor
    · simp [hl]
    · intro v hv
      simp only [List.mem_map] at hv
      obtain ⟨hh, hhm, rfl⟩ := hv
      obtain ⟨hhs, hhr⟩ := hm hh hhm
      have hilt : i < hh.length := by omega
      rw [List.getD_eq_getElem _ _ hilt]
      exact hhr _ (List.getElem_mem hilt)

lemma sum_map_length_const {r : Tensor2} {h d : ℕ}
    (hl : r.length = h) (he : ∀ e ∈ r, e.length = d) :
    (r.map List.length).sum = h * d := by
  induction r generalizing h with
  | nil => subst hl; simp
  | cons a t ih =>
    cases h with
    | zero => simp at hl
    | succ n =>
      simp only [List.length_cons, Nat.succ.injEq] at hl
      rw [List.map_cons, List.sum_cons, he a (List.mem_cons_self a t),
        ih hl (fun e he' => he e (List.mem_cons_of_mem _ he'))]
      ring

lemma combineHeads_shape {x : Tensor4} {b h s d : ℕ}
    (hx : shape4 x b h s d) (h1 : 1 ≤ h) : shape3 (combineHeads x) b s (h * d) := by
  obtain ⟨hl, hm⟩ := hx
  constructor
  · simp [combineHeads, hl]
  · intro m hmem
    simp only [combineHeads, List.mem_map] at hmem
    obtain ⟨heads, hh, rfl⟩ := hmem
    obtain ⟨hts, htm⟩ := transposeT3_shape (hm heads hh) h1
    constructor
    · simpa
    · intro r hr
      simp only [List.mem_map] at hr
      obtain ⟨r0, hr0, rfl⟩ := hr
      obtain ⟨hr0l, hr0e⟩ := htm r0 hr0
      rw [List.length_flatten]
      exact sum_map_length_const hr0l hr0e

lemma concatFeat_shape {a c : Tensor3} {b s f1 f2 : ℕ}
    (ha : shape3 a b s f1) (hc : shape3 c b s f2) :
    shape3 (concatFeat a c) b s (f1 + f2) := by
  obtain ⟨hab, ham⟩ := ha
  obtain ⟨hcb, hcm⟩ := hc
  constructor
  · simp [concatFeat, hab, hcb]
  · intro m hmem
    obtain ⟨m1, hm1, m2, hm2, rfl⟩ := mem_zipWith_elim hmem
    obtain ⟨hs1, hr1⟩ := ham m1 hm1
    obtain ⟨hs2, hr2⟩ := hcm m2 hm2
    constructor
    · simp [hs1, hs2]
    · intro r hr
      obtain ⟨r1, hrm1, r2, hrm2, rfl⟩ := mem_zipWith_elim hr
      simp [hr1 r1 hrm1, hr2 r2 hrm2]

/-! ### HeadDrop behaviour lemmas -/

lemma HeadDrop.applyRow_shape {heads : Tensor3} {h s d : ℕ} (scale : ℚ)
    (mask : Tensor1) (hh : shape3 heads h s d) :
    shape3 (HeadDrop.applyRow scale mask heads) h s d := by
  obtain ⟨hl, hm⟩ := hh
  constructor
  · simpa [HeadDrop.applyRow]
  · intro m hmem
    simp only [HeadDrop.applyRow, List.mem_map] at hmem
    obtain ⟨⟨i, m0⟩, hm0, rfl⟩ := hmem
    obtain ⟨hs, hr⟩ := hm m0 (List.snd_mem_of_mem_enum hm0)
    constructor
    · simpa
    · intro r hr'
      simp only [List.mem_map] at hr'
      obtain ⟨r0, hr0, rfl⟩ := hr'
      simpa using hr r0 hr0

/-- Identity branches of `HeadDrop.call`: not training, zero drop count, or a
single head. -/
lemma HeadDrop.call_id (batch : Tensor4) (training : Bool) (drop_n_heads : ℕ)
    (perms : List (List ℕ))
    (h : training = false ∨ drop_n_heads = 0 ∨ (batch.headD []).length = 1) :
    HeadDrop.call batch training drop_n_heads perms = .ok batch := by
  simp only [HeadDrop.call]
  rcases h with h | h | h
  · rw [if_pos (Or.inl h)]
  · rw [if_pos (Or.inr h)]
  · by_cases ht : training = false
    · rw [if_pos (Or.inl ht)]
    · by_cases hd : drop_n_heads = 0
      · rw [if_pos (Or.inr hd)]
      · rw [if_neg (by tauto), if_neg (by simp), if_pos h]

/-- Training branch of `HeadDrop.call` with a feasible drop count: the call
succeeds and multiplies each batch row by its shuffled keep mask and the
rescale factor `head_n / (head_n - drop_n_heads)`. -/
lemma HeadDrop.call_training (batch : Tensor4) (drop_n_heads : ℕ)
    (perms : List (List ℕ)) (hd : drop_n_heads ≠ 0)
    (h1 : (batch.headD []).length ≠ 1)
    (hle : drop_n_heads ≤ (batch.headD []).length) :
    HeadDrop.call batch true drop_n_heads perms =
      .ok (List.zipWith
        (fun heads mask => HeadDrop.applyRow
          (((batch.headD []).length : ℚ)
            / (((batch.headD []).length : ℚ) - (drop_n_heads : ℚ)))
          mask heads)
        batch
        ((List.range batch.length).map (fun b =>
          permuteList (perms.getD b (List.range (batch.headD []).length))
            (keepMaskBase (batch.headD []).length drop_n_heads)))) := by
  simp only [HeadDrop.call]
  have hones : tf_ones (((batch.headD []).length : ℤ) - (drop_n_heads : ℤ))
      = .ok (List.replicate ((batch.headD []).length - drop_n_heads) 1) := by
    unfold tf_ones
    rw [if_neg (by omega)]
    congr 1
    congr 1
    omega
  rw [if_neg (by simp [hd]), if_neg (by simp), if_neg h1, hones]
  rfl

/-- `HeadDrop.call` preserves the input shape whenever it succeeds. -/
lemma HeadDrop.call_ok_shape {batch y : Tensor4} {training : Bool}
    {drop_n_heads : ℕ} {perms : List (List ℕ)} {b h s d : ℕ}
    (hcall : HeadDrop.call batch training drop_n_heads perms = .ok y)
    (hsh : shape4 batch b h s d) : shape4 y b h s d := by
  simp only [HeadDrop.call] at hcall
  split at hcall
  · cases hcall; exact hsh
  · rw [if_neg (by simp)] at hcall
    split at hcall
    · cases hcall; exact hsh
    · cases hones : tf_ones (((batch.headD []).length : ℤ) - (drop_n_heads : ℤ)) with
      | error e => rw [hones] at hcall; simp [Bind.bind, Except.bind] at hcall
      | ok ones =>
        rw [hones] at hcall
        simp only [Bind.bind, Except.bind, Except.ok.injEq] at hcall
        subst hcall
        obtain ⟨hl, hm⟩ := hsh
        constructor
        · simp [hl]
        · intro m hmem
          obtain ⟨m1, hm1, m2, _, rfl⟩ := mem_zipWith_elim hmem
          exact HeadDrop.applyRow_shape _ _ (hm m1 hm1)

/-! ### MultiHeadAttention behaviour lemmas -/

lemma Except.isOk_map {α β : Type} (f : α → β) (e : Except String α) :
    (e.map f).isOk = e.isOk := by
  cases e <;> rfl

lemma MultiHeadAttention.call_eq (mha : MultiHeadAttention) (sdpa : SDPA)
    (v k q_in : Tensor3) (mask : Mask) (training : Bool) (drop_n_heads : ℕ)
    (perms : List (List ℕ)) :
    mha.call sdpa v k q_in mask training drop_n_heads perms =
      (HeadDrop.call (mha.kernelOut sdpa v k q_in mask).1 training drop_n_heads
          perms).map
        (fun dropped =>
          (mha.dense.apply3 (concatFeat q_in (combineHeads dropped)),
            (mha.kernelOut sdpa v k q_in mask).2)) := by
  unfold MultiHeadAttention.call
  cases h : HeadDrop.call (mha.kernelOut sdpa v k q_in mask).1 training
      drop_n_heads perms <;>
    simp [h, Bind.bind, Except.bind, Except.map]

lemma MultiHeadAttention.okOut_eq (mha : MultiHeadAttention) (sdpa : SDPA)
    (v k q_in : Tensor3) (mask : Mask) (training : Bool) (drop_n_heads : ℕ)
    (perms : List (List ℕ)) :
    okOut (mha.call sdpa v k q_in mask training drop_n_heads perms) =
      (HeadDrop.call (mha.kernelOut sdpa v k q_in mask).1 training drop_n_heads
          perms).toOption.map
        (fun dropped => mha.dense.apply3 (concatFeat q_in (combineHeads dropped))) := by
  rw [okOut, mha.call_eq]
  cases HeadDrop.call (mha.kernelOut sdpa v k q_in mask).1 training drop_n_heads
    perms <;> rfl

lemma MultiHeadAttention.okWeights_eq (mha : MultiHeadAttention) (sdpa : SDPA)
    (v k q_in : Tensor3) (mask : Mask) (training : Bool) (drop_n_heads : ℕ)
    (perms : List (List ℕ)) :
    okWeights (mha.call sdpa v k q_in mask training drop_n_heads perms) =
      (HeadDrop.call (mha.kernelOut sdpa v k q_in mask).1 training drop_n_heads
          perms).toOption.map
        (fun _ => (mha.kernelOut sdpa v k q_in mask).2) := by
  rw [okWeights, mha.call_eq]
  cases HeadDrop.call (mha.kernelOut sdpa v k q_in mask).1 training drop_n_heads
    perms <;> rfl

lemma MultiHeadAttention.isOk_call (mha : MultiHeadAttention) (sdpa : SDPA)
    (v k q_in : Tensor3) (mask : Mask) (training : Bool) (drop_n_heads : ℕ)
    (perms : List (List ℕ))
    (h : training = false ∨ drop_n_heads = 0) :
    (mha.call sdpa v k q_in mask training drop_n_heads perms).isOk = true := by
  rw [mha.call_eq, Except.isOk_map,
    HeadDrop.call_id _ _ _ _ (by tauto)]
  rfl

lemma MultiHeadAttention.okOut_shape {mha : MultiHeadAttention} {sdpa : SDPA}
    {v k q_in : Tensor3} {mask : Mask} {training : Bool} {drop_n_heads : ℕ}
    {perms : List (List ℕ)} {B Sq H D : ℕ} {Fq : ℕ}
    (hq : shape3 q_in B Sq Fq) (h1 : 1 ≤ H)
    (hsv : shape4 (mha.kernelOut sdpa v k q_in mask).1 B H Sq D) :
    ∀ t ∈ okOut (mha.call sdpa v k q_in mask training drop_n_heads perms),
      shape3 t B Sq mha.dense.units := by
  intro t ht
  rw [mha.okOut_eq] at ht
  cases hhd : HeadDrop.call (mha.kernelOut sdpa v k q_in mask).1 training
      drop_n_heads perms with
  | error e => rw [hhd] at ht; simp [Except.toOption] at ht
  | ok dropped =>
    rw [hhd] at ht
    simp only [Except.toOption, Option.map_some', Option.mem_def,
      Option.some.injEq] at ht
    subst ht
    have hds : shape4 dropped B H Sq D := HeadDrop.call_ok_shape hhd hsv
    exact DenseLayer.apply3_shape _
      (concatFeat_shape hq (combineHeads_shape hds h1))

lemma MultiHeadAttention.okWeights_shape {mha : MultiHeadAttention}
    {sdpa : SDPA} {v k q_in : Tensor3} {mask : Mask} {training : Bool}
    {drop_n_heads : ℕ} {perms : List (List ℕ)} {B Sq Sk H : ℕ}
    (hsw : shape4 (mha.kernelOut sdpa v k q_in mask).2 B H Sq Sk) :
    ∀ w ∈ okWeights (mha.call sdpa v k q_in mask training drop_n_heads perms),
      shape4 w B H Sq Sk := by
  intro w hw
  rw [mha.okWeights_eq] at hw
  cases hhd : HeadDrop.call (mha.kernelOut sdpa v k q_in mask).1 training
      drop_n_heads perms with
  | error e => rw [hhd] at hw; simp [Except.toOption] at hw
  | ok dropped =>
    rw [hhd] at hw
    simp only [Except.toOption, Option.map_some', Option.mem_def,
      Option.some.injEq] at hw
    subst hw
    exact hsw

/-! ### Keep-mask lemmas -/

lemma map_getD_range_self (l : Tensor1) :
    (List.range l.length).map (fun j => l.getD j 0) = l := by
  induction l with
  | nil => simp
  | cons a t ih =>
    rw [List.length_cons, List.range_succ_eq_map, List.map_cons, List.map_map]
    simp only [List.getD_cons_zero]
    have h2 : List.map ((fun j => (a :: t).getD j 0) ∘ Nat.succ) (List.range t.length)
        = List.map (fun j => t.getD j 0) (List.range t.length) := by
      apply List.map_congr_left
      intro j hj
      simp [Function.comp, List.getD_cons_succ]
    rw [h2, ih]

lemma keepMaskBase_length {H d : ℕ} (h : d ≤ H) :
    (keepMaskBase H d).length = H := by
  simp [keepMaskBase]
  omega

lemma permuteList_perm {p : List ℕ} {l : Tensor1}
    (hp : List.Perm p (List.range l.length)) : List.Perm (permuteList p l) l := by
  have h1 : List.Perm (permuteList p l)
      ((List.range l.length).map (fun j => l.getD j 0)) :=
    hp.map (fun j => l.getD j 0)
  rw [map_getD_range_self] at h1
  exact h1

lemma count_keepMaskBase_one {H d : ℕ} :
    (keepMaskBase H d).count 1 = H - d := by
  rw [keepMaskBase, List.count_append, List.count_replicate, List.count_replicate]
  rw [if_pos (by simp), if_neg (by norm_num)]
  omega

lemma count_keepMaskBase_zero {H d : ℕ} :
    (keepMaskBase H d).count 0 = d := by
  rw [keepMaskBase, List.count_append, List.count_replicate, List.count_replicate]
  rw [if_neg (by norm_num), if_pos (by simp)]
  omega

lemma sum_keepMaskBase {H d : ℕ} (h : d ≤ H) :
    (keepMaskBase H d).sum = (H : ℚ) - (d : ℚ) := by
  rw [keepMaskBase, List.sum_append, List.sum_replicate, List.sum_replicate]
  rw [smul_zero, nsmul_eq_mul, mul_one, add_zero]
  have : ((H - d : ℕ) : ℚ) = (H : ℚ) - (d : ℚ) := by
    push_cast [h]
    ring
  exact this

lemma isOk_exists {α : Type} {e : Except String α} (h : e.isOk = true) :
    ∃ a, e = .ok a := by
  cases e with
  | error m => simp [Except.isOk, Except.toBool] at h
  | ok a => exact ⟨a, rfl⟩

/-! ### Claim theorems -/

/-- C1: for value/key/query inputs of shape `(batch, seq, model_dim)`,
`MultiHeadAttention.call` builds its output by concatenating the original,
unprojected query `q_in` with the recombined per-head attention output along
the feature axis and projecting with the final dense layer; on success the
output has shape `(batch, seq_q, model_dim)` and the attention-weight map has
shape `(batch, num_heads, seq_q, seq_k)` (the weight-map shape assumes the
external attention kernel's shape contract, hypotheses `hsv`/`hsw`). -/
theorem mha_concat_query_projection_and_shapes
    (mha : MultiHeadAttention) (sdpa : SDPA) (v k q_in : Tensor3) (mask : Mask)
    (training : Bool) (drop_n_heads : ℕ) (perms : List (List ℕ))
    (B Sq Sk H D : ℕ)
    (hH : mha.num_heads = H) (h1 : 1 ≤ H) (hMD : mha.model_dim = H * D)
    (hq : shape3 q_in B Sq mha.model_dim)
    (hunits : mha.dense.units = mha.model_dim)
    (hsv : shape4 (mha.kernelOut sdpa v k q_in mask).1 B H Sq D)
    (hsw : shape4 (mha.kernelOut sdpa v k q_in mask).2 B H Sq Sk) :
    okOut (mha.call sdpa v k q_in mask training drop_n_heads perms) =
      (HeadDrop.call (mha.kernelOut sdpa v k q_in mask).1 training drop_n_heads
          perms).toOption.map
        (fun dropped => mha.dense.apply3 (concatFeat q_in (combineHeads dropped)))
    ∧ okWeights (mha.call sdpa v k q_in mask training drop_n_heads perms) =
      (HeadDrop.call (mha.kernelOut sdpa v k q_in mask).1 training drop_n_heads
          perms).toOption.map (fun _ => (mha.kernelOut sdpa v k q_in mask).2)
    ∧ (∀ t ∈ okOut (mha.call sdpa v k q_in mask training drop_n_heads perms),
        shape3 t B Sq mha.model_dim)
    ∧ (∀ w ∈ okWeights (mha.call sdpa v k q_in mask training drop_n_heads perms),
        shape4 w B mha.num_heads Sq Sk)
    ∧ (training = false ∨ drop_n_heads = 0 →
        (mha.call sdpa v k q_in mask training drop_n_heads perms).isOk = true) := by
  refine ⟨mha.okOut_eq .., mha.okWeights_eq .., ?_, ?_, ?_⟩
  · intro t ht
    have h := MultiHeadAttention.okOut_shape hq h1 hsv t ht
    rwa [hunits] at h
  · rw [hH]
    exact MultiHeadAttention.okWeights_shape hsw
  · exact mha.isOk_call sdpa v k q_in mask training drop_n_heads perms

/-- Witness for C1 at a concrete one-head instance. -/
theorem mha_concat_query_projection_and_shapes_witness :
    (mhaW.call sdpaW t3W t3W t3W [] false 0 []).isOk = true :=
  (mha_concat_query_projection_and_shapes mhaW sdpaW t3W t3W t3W [] false 0 []
    1 1 1 1 1 rfl (by decide) (by decide) (by decide) rfl (by decide)
    (by decide)).2.2.2.2 (Or.inl rfl)

/-- C3: `HeadDrop.call` returns its input exactly (no rescaling) when not in
training mode, when `drop_n_heads = 0`, or when the head dimension is `1`. -/
theorem headdrop_identity_cases (batch : Tensor4) (training : Bool)
    (drop_n_heads : ℕ) (perms : List (List ℕ))
    (h : training = false ∨ drop_n_heads = 0 ∨ (batch.headD []).length = 1) :
    HeadDrop.call batch training drop_n_heads perms = .ok batch :=
  HeadDrop.call_id batch training drop_n_heads perms h

/-- Witness for C3: a single-head tensor in training mode with a (degenerate)
drop count of 3 passes through unchanged. -/
theorem headdrop_identity_cases_witness :
    HeadDrop.call [[[[(2 : ℚ)]]]] true 3 [] = .ok [[[[(2 : ℚ)]]]] :=
  headdrop_identity_cases [[[[(2 : ℚ)]]]] true 3 [] (by decide)

/-- C8: in training mode with more than one head, `HeadDrop.call` never
validates `drop_n_heads` against the head count: at `drop_n_heads = num_heads`
it succeeds (raises nothing) and proceeds to the rescaling step whose factor is
`num_heads / (num_heads - drop_n_heads)` — a division with denominator
`num_heads - num_heads = 0`. -/
theorem headdrop_degenerate_drop_unvalidated (batch : Tensor4)
    (perms : List (List ℕ)) (B H S Dp : ℕ)
    (hsh : shape4 batch B H S Dp) (hB : 1 ≤ B) (hH : 1 < H) :
    (HeadDrop.call batch true H perms).isOk = true
    ∧ HeadDrop.call batch true H perms =
        .ok (List.zipWith
          (fun heads mask =>
            HeadDrop.applyRow ((H : ℚ) / ((H : ℚ) - (H : ℚ))) mask heads)
          batch
          ((List.range B).map (fun b =>
            permuteList (perms.getD b (List.range H)) (keepMaskBase H H))))
    ∧ (H : ℚ) - (H : ℚ) = 0 := by
  have hhd : (batch.headD []).length = H := headD_length_of_shape4 hsh hB
  have hlen : batch.length = B := hsh.1
  have heq := HeadDrop.call_training batch H perms (by omega)
    (by omega) (by omega)
  rw [hhd, hlen] at heq
  exact ⟨by rw [heq]; rfl, heq, by ring⟩

/-- Witness for C8 at a concrete two-head tensor with `drop_n_heads = 2`. -/
theorem headdrop_degenerate_drop_unvalidated_witness :
    (HeadDrop.call batch2W true 2 []).isOk = true :=
  (headdrop_degenerate_drop_unvalidated batch2W [] 1 2 1 1 (by decide)
    (by decide) (by decide)).1

/-- C10: the attention-weight map returned by `MultiHeadAttention.call` is the
kernel's weight map, computed before `HeadDrop` is applied; whenever two calls
on the same inputs differ only in `training`, `drop_n_heads` and the sampled
shuffles, their returned weight maps are identical. -/
theorem mha_weights_unaffected_by_headdrop (mha : MultiHeadAttention)
    (sdpa : SDPA) (v k q_in : Tensor3) (mask : Mask) (t1 t2 : Bool)
    (d1 d2 : ℕ) (p1 p2 : List (List ℕ))
    (h1 : (mha.call sdpa v k q_in mask t1 d1 p1).isOk = true)
    (h2 : (mha.call sdpa v k q_in mask t2 d2 p2).isOk = true) :
    okWeights (mha.call sdpa v k q_in mask t1 d1 p1) =
      some ((mha.kernelOut sdpa v k q_in mask).2)
    ∧ okWeights (mha.call sdpa v k q_in mask t1 d1 p1) =
      okWeights (mha.call sdpa v k q_in mask t2 d2 p2) := by
  have key : ∀ (t : Bool) (d : ℕ) (p : List (List ℕ)),
      (mha.call sdpa v k q_in mask t d p).isOk = true →
      okWeights (mha.call sdpa v k q_in mask t d p) =
        some ((mha.kernelOut sdpa v k q_in mask).2) := by
    intro t d p hok
    rw [mha.call_eq, Except.isOk_map] at hok
    obtain ⟨dropped, hdrop⟩ := isOk_exists hok
    rw [mha.okWeights_eq, hdrop]
    rfl
  have k1 := key t1 d1 p1 h1
  have k2 := key t2 d2 p2 h2
  exact ⟨k1, by rw [k1, k2]⟩

/-- Witness for C10: a two-head instance, once without head drop and once in
training mode dropping one head. -/
theorem mha_weights_unaffected_by_headdrop_witness :
    okWeights (mha2W.call sdpaW q2W q2W q2W [] false 0 []) =
      okWeights (mha2W.call sdpaW q2W q2W q2W [] true 1 [[0, 1]]) :=
  (mha_weights_unaffected_by_headdrop mha2W sdpaW q2W q2W q2W [] false true
    0 1 [] [[0, 1]] (by rfl) (by rfl)).2

lemma expectation_sum_allPerms4 (h : ℕ) (hlt : h < 4) :
    ((allPerms (List.range 4)).map (fun p =>
      (permuteList p (keepMaskBase 4 1)).getD h 0
        * ((4 : ℚ) / ((4 : ℚ) - (1 : ℚ))))).sum = 24 := by
  interval_cases h <;>
    norm_num [allPerms, insertEverywhere, List.range_succ, permuteList,
      keepMaskBase, List.replicate_succ]

/-- C2: in training mode with `1 < num_heads` and `0 < drop_n_heads <
num_heads`, `HeadDrop.call` multiplies each batch row by its independently
shuffled binary keep mask (exactly `num_heads - drop_n_heads` ones and
`drop_n_heads` zeros) and rescales by `num_heads / (num_heads -
drop_n_heads)`; in the `num_heads = 4`, `drop_n_heads = 1` instance each mask
sums to `3` before rescaling, and averaging any output entry uniformly over
all `24` shuffles recovers the input entry exactly. -/
theorem headdrop_mask_scale_and_expectation (batch : Tensor4)
    (drop_n_heads : ℕ) (perms : List (List ℕ)) (B H S Dp : ℕ)
    (hsh : shape4 batch B H S Dp) (hB : 1 ≤ B) (hH : 1 < H)
    (hd0 : drop_n_heads ≠ 0) (hdH : drop_n_heads < H)
    (hperm : ∀ b < B, List.Perm (perms.getD b (List.range H)) (List.range H)) :
    HeadDrop.call batch true drop_n_heads perms =
      .ok (List.zipWith
        (fun heads mask => HeadDrop.applyRow
          ((H : ℚ) / ((H : ℚ) - (drop_n_heads : ℚ))) mask heads)
        batch
        ((List.range B).map (fun b =>
          permuteList (perms.getD b (List.range H))
            (keepMaskBase H drop_n_heads))))
    ∧ (∀ b < B,
        (permuteList (perms.getD b (List.range H))
            (keepMaskBase H drop_n_heads)).length = H
        ∧ (permuteList (perms.getD b (List.range H))
            (keepMaskBase H drop_n_heads)).count 1 = H - drop_n_heads
        ∧ (permuteList (perms.getD b (List.range H))
            (keepMaskBase H drop_n_heads)).count 0 = drop_n_heads
        ∧ (permuteList (perms.getD b (List.range H))
            (keepMaskBase H drop_n_heads)).sum
            = (H : ℚ) - (drop_n_heads : ℚ))
    ∧ ((allPerms (List.range 4)).length = 24
        ∧ (allPerms (List.range 4)).Nodup
        ∧ (∀ p ∈ allPerms (List.range 4), List.Perm p (List.range 4))
        ∧ ∀ h < 4, ∀ vq : ℚ,
            ((allPerms (List.range 4)).map (fun p =>
              vq * (permuteList p (keepMaskBase 4 1)).getD h 0
                * ((4 : ℚ) / ((4 : ℚ) - (1 : ℚ))))).sum
              = ((allPerms (List.range 4)).length : ℚ) * vq) := by
  have hhd : (batch.headD []).length = H := headD_length_of_shape4 hsh hB
  have hlen : batch.length = B := hsh.1
  have hdle : drop_n_heads ≤ H := le_of_lt hdH
  refine ⟨?_, ?_, ?_, ?_, ?_, ?_⟩
  · have heq := HeadDrop.call_training batch drop_n_heads perms hd0
      (by omega) (by omega)
    rwa [hhd, hlen] at heq
  · intro b hb
    have hp := hperm b hb
    have hbl : (keepMaskBase H drop_n_heads).length = H :=
      keepMaskBase_length hdle
    have hmp : List.Perm
        (permuteList (perms.getD b (List.range H)) (keepMaskBase H drop_n_heads))
        (keepMaskBase H drop_n_heads) :=
      permuteList_perm (by rw [hbl]; exact hp)
    refine ⟨?_, ?_, ?_, ?_⟩
    · rw [hmp.length_eq, hbl]
    · rw [hmp.count_eq, count_keepMaskBase_one]
    · rw [hmp.count_eq, count_keepMaskBase_zero]
    · rw [hmp.sum_eq, sum_keepMaskBase hdle]
  · decide
  · decide
  · decide
  · intro h hlt vq
    simp only [mul_assoc]
    rw [List.sum_map_mul_left]
    have hsum := expectation_sum_allPerms4 h hlt
    simp only [mul_assoc] at hsum
    rw [hsum]
    have h24 : ((allPerms (List.range 4)).length : ℚ) = 24 := by
      norm_num [show (allPerms (List.range 4)).length = 24 from by decide]
    rw [h24]
    ring

/-- Witness for C2: the `(1, 4, 1, 1)` tensor with one dropped head and the
sampled shuffle `[1, 0, 2, 3]` — the shuffled mask sums to `4 - 1 = 3`. -/
theorem headdrop_mask_scale_and_expectation_witness :
    (permuteList ([[1, 0, 2, 3]].getD 0 (List.range 4))
      (keepMaskBase 4 1)).sum = (4 : ℚ) - (1 : ℚ) :=
  (((headdrop_mask_scale_and_expectation batch41W 1 [[1, 0, 2, 3]] 1 4 1 1
    (by decide) (by decide) (by decide) (by decide) (by decide)
    (by decide)).2.1) 0 (by decide)).2.2.2

/-- C4 (code bug): `DecoderPrenet.call` does apply dropout unconditionally
(both dropout layers are invoked with `training=True`), but the per-call
`dropout_rate` argument is **not** the rate that is applied: the source
assigns it to a `dropout_rate` attribute that the keras `Dropout` layer never
reads, so the layer keeps using the construction-time rate.  At a prenet
constructed with rate `1/2` (identity dense layers, all-keep noise) and called
with `dropout_rate = 1/10` on input `[[[1]]]`, the code scales twice by
`1/(1 - 1/2)` giving `[[[4]]]`, while the spec-intended behaviour
(`DecoderPrenet.call_spec`) scales twice by `1/(1 - 1/10)`, giving
`[[[100/81]]]`; the stored keras rate is still `1/2` after the call and only
the dead attribute holds `1/10`. -/
theorem decoder_prenet_dropout_rate_not_applied :
    (DecoderPrenet.call prenetW [[[1]]] (1 / 10) noiseW noiseW).2 = [[[4]]]
    ∧ DecoderPrenet.call_spec prenetW [[[1]]] (1 / 10) noiseW noiseW
        = [[[100 / 81]]]
    ∧ (DecoderPrenet.call prenetW [[[1]]] (1 / 10) noiseW noiseW).2
        ≠ DecoderPrenet.call_spec prenetW [[[1]]] (1 / 10) noiseW noiseW
    ∧ (DecoderPrenet.call prenetW [[[1]]] (1 / 10) noiseW
        noiseW).1.dropout_1.rate = 1 / 2
    ∧ (DecoderPrenet.call prenetW [[[1]]] (1 / 10) noiseW
        noiseW).1.dropout_1.dropout_rate = some (1 / 10) := by
  have hcode : (DecoderPrenet.call prenetW [[[1]]] (1 / 10) noiseW noiseW).2
      = [[[4]]] := by
    simp [DecoderPrenet.call, prenetW, DecoderPrenet.make, DenseLayer.apply3,
      DenseLayer.applyVec, KDropout.apply, mapIdx3, noiseW, List.range_succ]
    norm_num
  have hspec : DecoderPrenet.call_spec prenetW [[[1]]] (1 / 10) noiseW noiseW
      = [[[100 / 81]]] := by
    simp [DecoderPrenet.call_spec, prenetW, DecoderPrenet.make,
      DenseLayer.apply3, DenseLayer.applyVec, mapIdx3, noiseW, List.range_succ]
    norm_num
  refine ⟨hcode, hspec, ?_, rfl, rfl⟩
  rw [hcode, hspec]
  intro h
  simp only [List.cons.injEq, and_true] at h
  norm_num at h

/-- C5: `Postnet.call` returns the raw input unchanged as `mel_linear`, the
exact residual sum `conv_stack(x) + x` as `final_output`, and a 3-way stop
logit computed by the dense projection of the raw input `x` (never of the
refined output); the stop logits have feature width 3. -/
theorem postnet_residual_and_stop_from_raw_input (mel_channels : ℕ)
    (w : List (List ℚ)) (bias : List ℚ) (pcl : PostnetConvLayers)
    (noises : List (ℕ → ℕ → ℕ → ℚ)) (x : Tensor3) (training : Bool)
    (B S F : ℕ) (hx : shape3 x B S F) :
    Postnet.call (Postnet.make mel_channels w bias pcl) noises x training =
      { mel_linear := x,
        final_output := addT3 (pcl.call noises x training) x,
        stop_prob :=
          (Postnet.make mel_channels w bias pcl).stop_linear.apply3 x }
    ∧ shape3
        (Postnet.call (Postnet.make mel_channels w bias pcl) noises x
          training).stop_prob B S 3 := by
  constructor
  · rfl
  · have h := DenseLayer.apply3_shape
      (Postnet.make mel_channels w bias pcl).stop_linear hx
    exact h

/-- Witness for C5 at a concrete postnet without convolutions. -/
theorem postnet_residual_and_stop_from_raw_input_witness :
    shape3 (Postnet.call (Postnet.make 1 [[1, 1, 1]] [0, 0, 0] pclW) []
      [[[1]]] false).stop_prob 1 1 3 :=
  (postnet_residual_and_stop_from_raw_input 1 [[1, 1, 1]] [0, 0, 0] pclW []
    [[[1]]] false 1 1 1 (by decide)).2

lemma Decoder.loop_keys (sdpa : SDPA) (layers : List DecoderLayer) :
    ∀ (i : ℕ) (x enc_output : Tensor3) (training : Bool) (lam pm : Mask)
      (drop : ℕ) (rands : List LayerRand) (y : Tensor3)
      (aw : List (String × Tensor4)),
      Decoder.loop sdpa layers i x enc_output training lam pm drop rands
        = .ok (y, aw) →
      aw.map Prod.fst = decoderKeyList i layers.length
        ∧ aw.length = 2 * layers.length := by
  induction layers with
  | nil =>
    intro i x eo tr lam pm drop rands y aw h
    simp only [Decoder.loop, Except.ok.injEq, Prod.mk.injEq] at h
    rw [← h.2]
    simp [decoderKeyList]
  | cons l rest ih =>
    intro i x eo tr lam pm drop rands y aw h
    simp only [Decoder.loop] at h
    cases hc : l.call sdpa x eo tr lam pm drop (rands.getD i defaultLayerRand) with
    | error e => rw [hc] at h; simp [Bind.bind, Except.bind] at h
    | ok out =>
      rw [hc] at h
      simp only [Bind.bind, Except.bind] at h
      cases ht : Decoder.loop sdpa rest (i + 1) out.1 eo tr lam pm drop rands with
      | error e => rw [ht] at h; simp at h
      | ok tail =>
        rw [ht] at h
        simp only [Except.ok.injEq, Prod.mk.injEq] at h
        obtain ⟨hy, haw⟩ := h
        obtain ⟨ihk, ihl⟩ := ih (i + 1) out.1 eo tr lam pm drop rands tail.1
          tail.2 (by rw [ht])
        constructor
        · rw [← haw]
          simp only [List.map_cons, List.length_cons, decoderKeyList]
          rw [ihk]
        · rw [← haw]
          simp only [List.length_cons, ihl]
          ring

lemma Decoder.call_ok_elim {d : Decoder} {sdpa : SDPA}
    {inputs enc_output : Tensor3} {training : Bool} {lam pm : Mask}
    {drop : ℕ} {noise0 : ℕ → ℕ → ℕ → ℚ} {rands : List LayerRand}
    {r : Tensor3 × List (String × Tensor4)}
    (h : d.call sdpa inputs enc_output training lam pm drop noise0 rands
      = .ok r) :
    ∃ x1, broadcastAddT3 (smulT3 inputs d.sqrt_model_dim)
        (d.pos_encoding.map (List.take (inputs.headD []).length)) = .ok x1
      ∧ Decoder.loop sdpa d.dec_layers 0 (d.dropout.apply noise0 x1 training)
          enc_output training lam pm drop rands = .ok r := by
  have h' : (do
      let x ← broadcastAddT3 (smulT3 inputs d.sqrt_model_dim)
        (d.pos_encoding.map (List.take (inputs.headD []).length))
      Decoder.loop sdpa d.dec_layers 0 (d.dropout.apply noise0 x training)
        enc_output training lam pm drop rands) = Except.ok r := h
  clear h
  cases hb : broadcastAddT3 (smulT3 inputs d.sqrt_model_dim)
      (d.pos_encoding.map (List.take (inputs.headD []).length)) with
  | error e => rw [hb] at h'; simp [Bind.bind, Except.bind] at h'
  | ok x1 =>
    rw [hb] at h'
    simp only [Bind.bind, Except.bind] at h'
    exact ⟨x1, rfl, h'⟩

/-- C6: a successful `Decoder.call` over a stack of `N` layers returns an
attention-weight mapping with exactly `2 * N` entries whose ordered key list
is `decoder_layer1_block1, decoder_layer1_block2, ..., decoder_layerN_block1,
decoder_layerN_block2` (1-indexed; block1 holds the layer's self-attention
map, block2 its cross-attention map, by construction of `Decoder.loop`). -/
theorem decoder_attention_weight_keys (d : Decoder) (sdpa : SDPA)
    (inputs enc_output : Tensor3) (training : Bool) (lam pm : Mask)
    (drop : ℕ) (noise0 : ℕ → ℕ → ℕ → ℚ) (rands : List LayerRand)
    (hok : (d.call sdpa inputs enc_output training lam pm drop noise0
      rands).isOk = true) :
    okKeys (d.call sdpa inputs enc_output training lam pm drop noise0 rands)
      = some (decoderKeyList 0 d.dec_layers.length)
    ∧ (d.call sdpa inputs enc_output training lam pm drop noise0
        rands).toOption.map (fun r => r.2.length)
      = some (2 * d.dec_layers.length) := by
  obtain ⟨r, hr⟩ := isOk_exists hok
  obtain ⟨x1, hb, hl⟩ := Decoder.call_ok_elim hr
  rw [hr]
  obtain ⟨hk, hlen⟩ := Decoder.loop_keys sdpa d.dec_layers 0
    (d.dropout.apply noise0 x1 training) enc_output training lam pm drop rands
    r.1 r.2 (by rw [hl])
  constructor
  · simp only [okKeys, Except.toOption, Option.map_some', Option.some.injEq]
    exact hk
  · simp only [Except.toOption, Option.map_some', Option.some.injEq]
    exact hlen

/-- Witness for C6 at a concrete one-layer decoder. -/
theorem decoder_attention_weight_keys_witness :
    okKeys (decW.call sdpaW [[[1]]] [[[1]]] false [] [] 0 noiseW [])
      = some (decoderKeyList 0 decW.dec_layers.length) :=
  (decoder_attention_weight_keys decW sdpaW [[[1]]] [[[1]]] false [] [] 0
    noiseW [] (by rfl)).1

/-! ### Positional-encoding broadcast lemmas (sequence-length violations) -/

lemma shape_smulT3 {x : Tensor3} {b s f : ℕ} (c : ℚ) (h : shape3 x b s f) :
    shape3 (smulT3 x c) b s f := by
  obtain ⟨hb, hm⟩ := h
  constructor
  · simpa [smulT3]
  · intro m hmem
    simp only [smulT3, List.mem_map] at hmem
    obtain ⟨m0, hm0, rfl⟩ := hmem
    obtain ⟨hs, hr⟩ := hm m0 hm0
    constructor
    · simpa
    · intro r hr'
      simp only [List.mem_map] at hr'
      obtain ⟨r0, hr0, rfl⟩ := hr'
      simpa using hr r0 hr0

lemma headD_shape2_of_shape3 {x : Tensor3} {b s f : ℕ}
    (h : shape3 x b s f) (hb : 1 ≤ b) : shape2 (x.headD []) s f := by
  obtain ⟨hl, hm⟩ := h
  cases x with
  | nil => simp at hl; omega
  | cons m rest => exact hm m (List.mem_cons_self m rest)

lemma bget3_zero {t : Tensor3} (h : 1 ≤ t.length) : bget3 t 0 = t.headD [] := by
  cases t with
  | nil => simp at h
  | cons a rest =>
    unfold bget3
    split <;> rfl

lemma broadcastDim_B1 {B : ℕ} (hB : 1 ≤ B) : broadcastDim B 1 = .ok B := by
  unfold broadcastDim
  rcases eq_or_ne B 1 with h | h
  · rw [if_pos h, h]
  · rw [if_neg h, if_neg h, if_pos rfl]

lemma broadcastAddMat_error {m q : Tensor2} {S P : ℕ}
    (hm : m.length = S) (hq : q.length = P) (h2 : 2 ≤ P) (hS : P < S) :
    broadcastAddMat m q = .error "Incompatible shapes" := by
  unfold broadcastAddMat
  rw [hm, hq]
  unfold broadcastDim
  rw [if_neg (by omega), if_neg (by omega), if_neg (by omega)]
  rfl

lemma entry_add_error {x pos : Tensor3} {B S F P : ℕ} (c : ℚ)
    (hx : shape3 x B S F) (hB : 1 ≤ B) (hl : pos.length = 1)
    (hP : (pos.headD []).length = P) (h2 : 2 ≤ P) (hS : P < S) :
    broadcastAddT3 (smulT3 x c) (pos.map (List.take S))
      = .error "Incompatible shapes" := by
  have ha : shape3 (smulT3 x c) B S F := shape_smulT3 c hx
  have halen : (smulT3 x c).length = B := ha.1
  have hblen : (pos.map (List.take S)).length = 1 := by simp [hl]
  have ham : shape2 ((smulT3 x c).headD []) S F := headD_shape2_of_shape3 ha hB
  obtain ⟨p0, rest, rfl⟩ : ∃ p0 rest, pos = p0 :: rest := by
    cases pos with
    | nil => simp at hl
    | cons p0 rest => exact ⟨p0, rest, rfl⟩
  unfold broadcastAddT3
  rw [halen, hblen, broadcastDim_B1 hB]
  simp only [Bind.bind, Except.bind]
  obtain ⟨B', rfl⟩ : ∃ B', B = B' + 1 := ⟨B - 1, by omega⟩
  rw [List.range_succ_eq_map, List.mapM_cons]
  have hm0 : bget3 (smulT3 x c) 0 = (smulT3 x c).headD [] :=
    bget3_zero (by omega)
  have hb0 : bget3 ((p0 :: rest).map (List.take S)) 0 = List.take S p0 := by
    rw [bget3_zero (by simp)]
    rfl
  have hq : (List.take S p0).length = P := by
    rw [List.length_take]
    have : p0.length = P := hP
    omega
  rw [hm0, hb0, broadcastAddMat_error ham.1 hq h2 hS]
  rfl

/-- C7 is falsified by the code as stated (see
`encoder_overlong_broadcast_accepted`): with a length-1 positional table the
overlong input broadcasts instead of failing.  Amended claim: whenever the
positional table's length is at least 2, every call on a non-empty batch whose
sequence length strictly exceeds the table length aborts with an error (the
broadcasting shape mismatch raised while adding the positional-encoding
slice), for both `Encoder.call` and `Decoder.call`. -/
theorem encoder_decoder_overlong_rejected_when_table_longer (e : Encoder)
    (d : Decoder) (sdpa : SDPA) (inputs enc_output : Tensor3)
    (training : Bool) (mask lam pm : Mask) (drop : ℕ)
    (noise0 : ℕ → ℕ → ℕ → ℚ) (rands : List LayerRand) (B S F P : ℕ)
    (hin : shape3 inputs B S F) (hB : 1 ≤ B) (h2 : 2 ≤ P) (hS : P < S)
    (hel : e.pos_encoding.length = 1)
    (heP : (e.pos_encoding.headD []).length = P)
    (hdl : d.pos_encoding.length = 1)
    (hdP : (d.pos_encoding.headD []).length = P) :
    (e.call sdpa inputs training mask drop noise0 rands).isOk = false
    ∧ (d.call sdpa inputs enc_output training lam pm drop noise0
        rands).isOk = false := by
  have hseq : (inputs.headD []).length = S := (headD_shape2_of_shape3 hin hB).1
  constructor
  · have h' : e.call sdpa inputs training mask drop noise0 rands = (do
        let x ← broadcastAddT3 (smulT3 inputs e.sqrt_model_dim)
          (e.pos_encoding.map (List.take (inputs.headD []).length))
        Encoder.loop sdpa e.enc_layers 0 (e.dropout.apply noise0 x training)
          training mask drop rands) := rfl
    rw [h', hseq, entry_add_error e.sqrt_model_dim hin hB hel heP h2 hS]
    rfl
  · have h' : d.call sdpa inputs enc_output training lam pm drop noise0 rands
        = (do
        let x ← broadcastAddT3 (smulT3 inputs d.sqrt_model_dim)
          (d.pos_encoding.map (List.take (inputs.headD []).length))
        Decoder.loop sdpa d.dec_layers 0 (d.dropout.apply noise0 x training)
          enc_output training lam pm drop rands) := rfl
    rw [h', hseq, entry_add_error d.sqrt_model_dim hin hB hdl hdP h2 hS]
    rfl

/-- Witness for the amended C7: a two-position table with a three-position
input is rejected by both encoder and decoder. -/
theorem encoder_decoder_overlong_rejected_when_table_longer_witness :
    (enc2W.call sdpaW [[[1], [1], [1]]] false [] 0 noiseW []).isOk = false
    ∧ (dec2W.call sdpaW [[[1], [1], [1]]] [[[1], [1], [1]]] false [] [] 0
        noiseW []).isOk = false :=
  encoder_decoder_overlong_rejected_when_table_longer enc2W dec2W sdpaW
    [[[1], [1], [1]]] [[[1], [1], [1]]] false [] [] [] 0 noiseW [] 1 3 1 2
    (by decide) (by decide) (by decide) (by decide) (by decide) (by decide)
    (by decide) (by decide)

/-- Counterexample to C7 as stated: `encW`'s positional table covers exactly
one position (`maximum_position_encoding = 1`), the input has sequence length
2 — yet the call is *not* rejected: the length-1 positional slice broadcasts
over the sequence axis and the encoder produces an output. -/
theorem encoder_overlong_broadcast_accepted :
    (encW.pos_encoding.headD []).length = 1
    ∧ (([[[(1 : ℚ)], [1]]] : Tensor3).headD []).length = 2
    ∧ (encW.call sdpaW [[[1], [1]]] false [] 0 noiseW []).isOk = true := by
  refine ⟨rfl, rfl, ?_⟩
  rfl

/-! ### Residual-normalization wrapper lemmas -/

lemma addVec_comm (a b : Tensor1) : addVec a b = addVec b a :=
  List.zipWith_comm_of_comm _ (fun u w => add_comm u w) a b

lemma addT2_comm (a b : Tensor2) : addT2 a b = addT2 b a :=
  List.zipWith_comm_of_comm _ addVec_comm a b

lemma addT3_comm (a b : Tensor3) : addT3 a b = addT3 b a :=
  List.zipWith_comm_of_comm _ addT2_comm a b

lemma SelfAttentionResNorm.okOut_self_residual (l : SelfAttentionResNorm) (sdpa : SDPA)
    (x : Tensor3) (training : Bool) (mask : Mask) (drop : ℕ)
    (perms : List (List ℕ)) (noise : ℕ → ℕ → ℕ → ℚ) :
    okOut (l.call sdpa x training mask drop perms noise) =
      (okOut (l.mha.call sdpa x x x mask training drop perms)).map
        (fun a => l.ln.apply3 (addT3 x (l.dropout.apply noise a training))) := by
  unfold SelfAttentionResNorm.call
  cases h : l.mha.call sdpa x x x mask training drop perms <;>
    simp [h, okOut, Bind.bind, Except.bind, Except.toOption]

lemma CrossAttentionResnorm.okOut_cross_residual (l : CrossAttentionResnorm) (sdpa : SDPA)
    (q k v : Tensor3) (training : Bool) (mask : Mask) (drop : ℕ)
    (perms : List (List ℕ)) (noise : ℕ → ℕ → ℕ → ℚ) :
    okOut (l.call sdpa q k v training mask drop perms noise) =
      (okOut (l.mha.call sdpa v k q mask training drop perms)).map
        (fun a => l.layernorm.apply3
          (addT3 (l.dropout.apply noise a training) q)) := by
  unfold CrossAttentionResnorm.call
  cases h : l.mha.call sdpa v k q mask training drop perms <;>
    simp [h, okOut, Bind.bind, Except.bind, Except.toOption]

/-- C9: each residual-normalization wrapper computes
`LayerNorm (x + dropout (sub x))` — the residual is added to the *original*
primary input, dropout touches only the sub-computation's output and is the
identity outside training mode, the normalization layers are constructed with
epsilon `1e-6` — and the wrapper output has the primary input's shape (for
the attention wrappers, under the external kernel's shape contract). -/
theorem resnorm_wrappers_residual_norm_shape :
    (∀ (l : SelfAttentionResNorm) (sdpa : SDPA) (x : Tensor3) (training : Bool)
        (mask : Mask) (drop : ℕ) (perms : List (List ℕ))
        (noise : ℕ → ℕ → ℕ → ℚ),
      okOut (l.call sdpa x training mask drop perms noise) =
        (okOut (l.mha.call sdpa x x x mask training drop perms)).map
          (fun a => l.ln.apply3 (addT3 x (l.dropout.apply noise a training))))
    ∧ (∀ (l : CrossAttentionResnorm) (sdpa : SDPA) (q k v : Tensor3)
        (training : Bool) (mask : Mask) (drop : ℕ) (perms : List (List ℕ))
        (noise : ℕ → ℕ → ℕ → ℚ),
      okOut (l.call sdpa q k v training mask drop perms noise) =
        (okOut (l.mha.call sdpa v k q mask training drop perms)).map
          (fun a => l.layernorm.apply3
            (addT3 q (l.dropout.apply noise a training))))
    ∧ (∀ (l : FFNResNorm) (x : Tensor3) (training : Bool)
        (noise : ℕ → ℕ → ℕ → ℚ),
      l.call x training noise =
        l.ln.apply3 (addT3 x (l.dropout.apply noise (l.ffn.call x) training)))
    ∧ (∀ (kd : KDropout) (noise : ℕ → ℕ → ℕ → ℚ) (x : Tensor3),
      kd.apply noise x false = x)
    ∧ (∀ (mha : MultiHeadAttention) (g bb : List ℚ) (r : ℚ → ℚ) (rate : ℚ),
      (SelfAttentionResNorm.make mha g bb r rate).ln.epsilon = 1 / 1000000
        ∧ (CrossAttentionResnorm.make mha g bb r rate).layernorm.epsilon
          = 1 / 1000000)
    ∧ (∀ (ffn : PointWiseFFN) (g bb : List ℚ) (r : ℚ → ℚ) (rate : ℚ),
      (FFNResNorm.make ffn g bb r rate).ln.epsilon = 1 / 1000000)
    ∧ (∀ (l : SelfAttentionResNorm) (sdpa : SDPA) (x : Tensor3)
        (training : Bool) (mask : Mask) (drop : ℕ) (perms : List (List ℕ))
        (noise : ℕ → ℕ → ℕ → ℚ) (B S H D : ℕ),
      shape3 x B S l.mha.dense.units → 1 ≤ H →
      shape4 (l.mha.kernelOut sdpa x x x mask).1 B H S D →
      ∀ t ∈ okOut (l.call sdpa x training mask drop perms noise),
        shape3 t B S l.mha.dense.units)
    ∧ (∀ (l : CrossAttentionResnorm) (sdpa : SDPA) (q k v : Tensor3)
        (training : Bool) (mask : Mask) (drop : ℕ) (perms : List (List ℕ))
        (noise : ℕ → ℕ → ℕ → ℚ) (B S H D : ℕ),
      shape3 q B S l.mha.dense.units → 1 ≤ H →
      shape4 (l.mha.kernelOut sdpa v k q mask).1 B H S D →
      ∀ t ∈ okOut (l.call sdpa q k v training mask drop perms noise),
        shape3 t B S l.mha.dense.units)
    ∧ (∀ (l : FFNResNorm) (x : Tensor3) (training : Bool)
        (noise : ℕ → ℕ → ℕ → ℚ) (B S : ℕ),
      shape3 x B S l.ffn.d2.units →
      shape3 (l.call x training noise) B S l.ffn.d2.units) := by
  refine ⟨?_, ?_, ?_, ?_, ?_, ?_, ?_, ?_, ?_⟩
  · intro l sdpa x training mask drop perms noise
    exact l.okOut_self_residual sdpa x training mask drop perms noise
  · intro l sdpa q k v training mask drop perms noise
    rw [l.okOut_cross_residual sdpa q k v training mask drop perms noise]
    simp only [show ∀ a, addT3 (l.dropout.apply noise a training) q
      = addT3 q (l.dropout.apply noise a training) from fun a => addT3_comm _ _]
  · intro l x training noise
    rfl
  · intro kd noise x
    rfl
  · intro mha g bb r rate
    exact ⟨rfl, rfl⟩
  · intro ffn g bb r rate
    rfl
  · intro l sdpa x training mask drop perms noise B S H D hx h1 hsv t ht
    rw [l.okOut_self_residual] at ht
    cases hm : okOut (l.mha.call sdpa x x x mask training drop perms) with
    | none => rw [hm] at ht; simp at ht
    | some a =>
      rw [hm] at ht
      simp only [Option.map_some', Option.mem_def, Option.some.injEq] at ht
      subst ht
      have hash : shape3 a B S l.mha.dense.units :=
        MultiHeadAttention.okOut_shape hx h1 hsv a (by rw [hm]; rfl)
      exact LayerNormalization.apply3_preserves_shape _
        (shape_addT3 hx (KDropout.shape_apply _ _ _ hash))
  · intro l sdpa q k v training mask drop perms noise B S H D hq h1 hsv t ht
    rw [l.okOut_cross_residual] at ht
    cases hm : okOut (l.mha.call sdpa v k q mask training drop perms) with
    | none => rw [hm] at ht; simp at ht
    | some a =>
      rw [hm] at ht
      simp only [Option.map_some', Option.mem_def, Option.some.injEq] at ht
      subst ht
      have hash : shape3 a B S l.mha.dense.units :=
        MultiHeadAttention.okOut_shape hq h1 hsv a (by rw [hm]; rfl)
      have hsum : shape3 (addT3 (l.dropout.apply noise a training) q) B S
          l.mha.dense.units :=
        shape_addT3 (KDropout.shape_apply _ _ _ hash) hq
      exact LayerNormalization.apply3_preserves_shape _ hsum
  · intro l x training noise B S hx
    exact LayerNormalization.apply3_preserves_shape _
      (shape_addT3 hx (KDropout.shape_apply _ _ _
        (DenseLayer.apply3_shape _ (DenseLayer.apply3_shape _ hx))))

/-- Witness for C9: the feed-forward wrapper instance preserves the shape of a
concrete `(1, 1, 1)` input. -/
theorem resnorm_wrappers_residual_norm_shape_witness :
    shape3 (FFNResNorm.call ffnrW t3W false noiseW) 1 1 ffnrW.ffn.d2.units :=
  (resnorm_wrappers_residual_norm_shape).2.2.2.2.2.2.2.2 ffnrW t3W false
    noiseW 1 1 (by decide)
